import Mathlib

/-!
Verification development for the struct-layout analysis core in
`src/lib/StructAnalyzer.h`.  The C++ class `StructInfo` is shallowly embedded:
its per-field vectors become Lean lists, LLVM values and types become closed
inductive types carrying exactly the information the analyzer inspects, and
each member function becomes a Lean function translated clause by clause from
the source.  Fatal `assert` calls are modelled with `Except.error`.
-/

namespace SlabCache

/-- Identity of an LLVM struct type as the analyzer sees it: its name and
whether it is opaque (`StructType::isOpaque`). -/
structure LStructTy where
  name : String
  opq : Bool
deriving DecidableEq, Repr

/-- LLVM types, restricted to the shape information `StructInfo` inspects:
struct types, pointer types with their element type, array types with their
element type, and everything else. -/
inductive LTy where
  | structTy (st : LStructTy)
  | ptrTy (elem : LTy)
  | arrTy (elem : LTy)
  | otherTy
deriving DecidableEq, Repr

/-- Mirrors `StructInfo::getStructType` (StructAnalyzer.h:138-151): unwrap
pointer and array indirection down to a struct type, or fail.  The C++ null
input case does not arise here because `LTy` has no null inhabitant. -/
def getStructType : LTy → Option LStructTy
  | .structTy st => some st
  | .ptrTy t => getStructType t
  | .arrTy t => getStructType t
  | .otherTy => none

/-- Mirrors `Type::isPointerTy`. -/
def LTy.isPointerTy : LTy → Bool
  | .ptrTy _ => true
  | _ => false

/-- LLVM values, restricted to the cases distinguished by the backward
dataflow in `StructInfo::getAllocCache` (StructAnalyzer.h:179-262):
loads and stores with their operand 0, calls with the callee name and first
argument operand, other instructions, global variables (constancy flag,
optional initializer, use list), constant GEP expressions (the combined
`dyn_cast<ConstantExpr>` plus `isGEPWithNoNotionalOverIndexing` test is one
boolean here) with their base operand, constant character data
(`ConstantDataSequential`, carrying the embedded string already stripped as by
`getAsCString`), function arguments, and other values. -/
inductive LVal where
  | load (op0 : LVal)
  | store (op0 : LVal)
  | callInst (calleeName : String) (argOp0 : LVal)
  | otherInst
  | globalVar (isConst : Bool) (initv : Option LVal) (users : List LVal)
  | constExprGEP (noOverIdx : Bool) (base : LVal)
  | constDataSeq (str : String)
  | argVal
  | otherVal

/-- Mirrors `dyn_cast<Instruction>` succeeding: the constructors of `LVal`
that model LLVM instructions. -/
def LVal.isInstruction : LVal → Bool
  | .load _ => true
  | .store _ => true
  | .callInst _ _ => true
  | .otherInst => true
  | _ => false

/-- Mirrors `dyn_cast<GlobalVariable>`: the value itself when it is a global
variable, otherwise failure. -/
def LVal.asGlobal : LVal → Option LVal
  | .globalVar c i u => some (.globalVar c i u)
  | _ => none

/-- Use list of a global variable (`GlobalVariable::users`); empty for other
values. -/
def LVal.gUsers : LVal → List LVal
  | .globalVar _ _ us => us
  | _ => []

/-- True when the first character list starts the second. -/
def startsWithChars : List Char → List Char → Bool
  | [], _ => true
  | _ :: _, [] => false
  | a :: p, b :: s => a == b && startsWithChars p s

/-- True when the first character list occurs contiguously in the second. -/
def hasSubChars (pat : List Char) : List Char → Bool
  | [] => pat.isEmpty
  | c :: rest => startsWithChars pat (c :: rest) || hasSubChars pat rest

/-- Mirrors `std::string::find(pat) != std::string::npos`: the string
contains the pattern as a contiguous substring. -/
def containsSubstr (s pat : String) : Bool :=
  hasSubChars pat.toList s.toList

/-- Mirrors the global set `generic_alloc` (StructAnalyzer.h:24-35). -/
def genericAllocNames : List String :=
  ["kmalloc", "kzalloc", "__kmalloc", "__kmalloc_node", "kmalloc_node",
   "kzalloc_node", "kcalloc_node", "kcalloc", "kvzalloc", "kvzalloc_node"]

/-- Mirrors the global set `specific_alloc` (StructAnalyzer.h:36-40). -/
def specificAllocNames : List String :=
  ["kmem_cache_alloc", "kmem_cache_alloc_node", "kmem_cache_zalloc"]

/-- Mirrors the loop `int i = 3; while (pow(2,i) < getAllocSize()) i++;`
(StructAnalyzer.h:252-253).  The loop is embedded with explicit fuel; fuel
`size` always suffices because the loop stops as soon as `2 ^ i` reaches
`size`, which happens after at most `size` increments starting from `i = 3`
(indeed `size ≤ 2 ^ (3 + size)`). -/
def bucketLoopAux : Nat → Nat → Nat → Nat
  | 0, i, _ => i
  | fuel + 1, i, size => if 2 ^ i < size then bucketLoopAux fuel (i + 1) size else i

/-- Exponent of the power-of-two bucket chosen for a generic allocation of
`size` bytes: the loop above run with sufficient fuel. -/
def kmallocBucketExp (size : Nat) : Nat :=
  bucketLoopAux size 3 size

/-- Mirrors the generic-allocator tail of `StructInfo::getAllocCache`
(StructAnalyzer.h:251-261): compute `largerAlloc = 2 ^ i`, map the four
named ranges in source order, and otherwise synthesize the literal bucket
name. -/
def genericCacheName (allocSize : Nat) : String :=
  let largerAlloc := 2 ^ kmallocBucketExp allocSize
  if largerAlloc < 8192 ∧ 4096 ≤ largerAlloc then "kmalloc-8k"
  else if largerAlloc < 4096 ∧ 2048 ≤ largerAlloc then "kmalloc-4k"
  else if largerAlloc < 2048 ∧ 1024 ≤ largerAlloc then "kmalloc-2k"
  else if largerAlloc < 1024 ∧ 512 ≤ largerAlloc then "kmalloc-1k"
  else "kmalloc-" ++ toString largerAlloc

/-- Mirrors `StructInfo::getProducerOfArgument0` (StructAnalyzer.h:153-176).
The current instruction is represented by its operand 0 (`arg0`), the
instruction list of its basic block (`block`), and its index in that block
(`pos`); the C++ iterator scan that locates the instruction by pointer
identity becomes list indexing.  If the operand is itself an instruction it
is returned directly; otherwise the immediately preceding instruction in the
block is returned, or nothing when the instruction is first in its block. -/
def getProducerOfArgument0 (arg0 : LVal) (block : List LVal) (pos : Nat) : Option LVal :=
  if arg0.isInstruction then some arg0
  else if pos = 0 then none
  else block[pos - 1]?

/-- Mirrors the body of the `globalVar->users()` loop in
`StructInfo::getAllocCache` (StructAnalyzer.h:219-246) for a single user:
the user must be a store whose stored operand is a call to a function whose
name contains "kmem_cache_create"; that call's first argument must be a
constant GEP with no over-indexing whose base is a constant global variable
initialized with character data; the embedded string is the cache name.
Any failed test yields nothing (the C++ falls through to the next user). -/
def traceUser : LVal → Option String
  | .store storedVal =>
    match storedVal with
    | .callInst cname carg0 =>
      if containsSubstr cname "kmem_cache_create" then
        match carg0 with
        | .constExprGEP noOverIdx base =>
          if noOverIdx then
            match base with
            | .globalVar isConst initv _ =>
              if isConst then
                match initv with
                | some (.constDataSeq s) => some s
                | _ => none
              else none
            | _ => none
          else none
        | _ => none
      else none
    | _ => none
  | _ => none

/-- Mirrors the iteration over `globalVar->users()`: the first user whose
trace succeeds supplies the name; if no user matches, the loop falls
through and the site yields nothing. -/
def scanUsers : List LVal → Option String
  | [] => none
  | u :: rest =>
    match traceUser u with
    | some s => some s
    | none => scanUsers rest

/-- One allocation call site as inspected by `StructInfo::getAllocCache`:
the called function's name, the type and value of the callee's formal first
parameter (`allocFunction->getArg(0)`), the call's operand 0
(`CI->getOperand(0)`), and the call's basic block together with the call's
index in it (for `getProducerOfArgument0`). -/
structure AllocSite where
  calleeName : String
  funcArg0Ty : LTy
  funcArg0 : LVal
  callArg0 : LVal
  block : List LVal
  pos : Nat

/-- Mirrors the dedicated-cache branch of `StructInfo::getAllocCache`
(StructAnalyzer.h:193-249) for one call site, as the optional recovered
cache name.  Both `continue` statements and falling off the end of the
branch mean the site contributes no name, hence `none` for every failed
test.  Following the source: `stype` is the struct type reached from the
formal first parameter's type, the direct `dyn_cast<GlobalVariable>` of the
formal first parameter is tried first, the producer of the call's operand 0
is consulted (skipping the site when absent), a load's operand may supply
the global instead, the descriptor type name must be "struct.kmem_cache",
and finally the global's users are scanned. -/
def traceDedicated (site : AllocSite) : Option String :=
  let stype := getStructType site.funcArg0Ty
  let globalVar0 := site.funcArg0.asGlobal
  match getProducerOfArgument0 site.callArg0 site.block site.pos with
  | none => none
  | some prev =>
    let loadOp : Option LVal :=
      match prev with
      | .load src => some src
      | _ => none
    match stype with
    | none => none
    | some st =>
      if site.funcArg0Ty.isPointerTy then
        let globalVar :=
          match globalVar0 with
          | some g => some g
          | none =>
            match loadOp with
            | some src => src.asGlobal
            | none => none
        match globalVar with
        | none => none
        | some g =>
          if st.name == "struct.kmem_cache" then scanUsers g.gUsers
          else none
      else none

/-- Dedicated-cache name contributed by one site: the trace runs only when
the callee is one of the `specific_alloc` entry points
(StructAnalyzer.h:193). -/
def dedicatedNameOfSite (site : AllocSite) : Option String :=
  if specificAllocNames.contains site.calleeName then traceDedicated site else none

/-- Mirrors `StructInfo::CheckSrc` (StructAnalyzer.h:313-317); the two
operand vectors hold value identities, modelled as numeric ids. -/
structure CheckSrc where
  src1 : List Nat
  src2 : List Nat
  branchTaken : Nat
deriving DecidableEq, Repr

/-- Mirrors `StructInfo::SiteInfo` (StructAnalyzer.h:323-333).  Pointer
fields (`llvm::StructType *`, `llvm::Value *`) become optional identities:
struct types by name, values by numeric id.  `leakCheckMap` is the nested
`CheckMap` (string key, then instruction id to `CheckSrc`). -/
structure SiteInfo where
  tag : Nat
  fromSt : Option String
  fromValue : Option Nat
  lenSt : Option String
  lenValue : Option Nat
  leakCheckMap : List (String × List (Nat × CheckSrc))
deriving DecidableEq, Repr

/-- Mirrors the nested `LeakInfo` registry (StructAnalyzer.h:336-340):
byte offset, then leak-site value (by id), to `SiteInfo`.  The two
`unordered_map` levels become association lists. -/
def LeakRegistry : Type :=
  List (Nat × List (Nat × SiteInfo))

/-- Mirrors `unordered_map::find` on an association list. -/
def assocFind {α : Type} (key : Nat) : List (Nat × α) → Option α
  | [] => none
  | (k, w) :: rest => if k = key then some w else assocFind key rest

/-- Replaces the binding of `offset` in the registry with a new inner map,
modelling the in-place mutation of `it->second`. -/
def replaceEntry (li : LeakRegistry) (offset : Nat) (lsi : List (Nat × SiteInfo)) :
    LeakRegistry :=
  match li with
  | [] => []
  | (k, w) :: rest =>
    if k = offset then (k, lsi) :: rest else (k, w) :: replaceEntry rest offset lsi

/-- Mirrors `StructInfo::addLeakSourceInfo` (StructAnalyzer.h:342-363).
A fresh offset inserts a one-entry inner map; a fresh site value inserts
into the existing inner map; an existing `(offset, V)` key reaches
`WARNING` plus `assert(false)`, modelled as a fatal error (the assignment
after the assert is unreachable). -/
def addLeakSourceInfo (li : LeakRegistry) (offset v : Nat) (siteInfo : SiteInfo) :
    Except String LeakRegistry :=
  match assocFind offset li with
  | none => .ok ((offset, [(v, siteInfo)]) :: li)
  | some lsi =>
    match assocFind v lsi with
    | none => .ok (replaceEntry li offset ((v, siteInfo) :: lsi))
    | some _ => .error "Are we trying to update siteInfo?"

/-- Mirrors `StructInfo::getSiteInfo` (StructAnalyzer.h:365-379). -/
def getSiteInfo (li : LeakRegistry) (offset v : Nat) : Option SiteInfo :=
  match assocFind offset li with
  | none => none
  | some lsi => assocFind v lsi

/-- The state of `class StructInfo` (StructAnalyzer.h:46-710) that the
analyzed operations touch: the per-field vectors, the container set, the
recorded allocation size and sites, and the leak registry. -/
structure StructInfo where
  arrayFlags : List Bool := []
  pointerFlags : List Bool := []
  unionFlags : List Bool := []
  fieldSize : List Nat := []
  offsetMap : List Nat := []
  fieldOffset : List Nat := []
  fieldRealSize : List Nat := []
  containers : List (LStructTy × Nat) := []
  allocSize : Nat := 0
  allocSite : List AllocSite := []
  leakInfo : LeakRegistry := []

/-- Mirrors `StructInfo::addOffsetMap` (StructAnalyzer.h:84-86). -/
def StructInfo.addOffsetMap (s : StructInfo) (newOffsetMap : Nat) : StructInfo :=
  { s with offsetMap := s.offsetMap ++ [newOffsetMap] }

/-- Mirrors `StructInfo::addField` (StructAnalyzer.h:87-93): one push onto
each of `fieldSize`, `arrayFlags`, `pointerFlags`, `unionFlags`. -/
def StructInfo.addField (s : StructInfo) (newFieldSize : Nat)
    (isArray isPointer isUnion : Bool) : StructInfo :=
  { s with
    fieldSize := s.fieldSize ++ [newFieldSize]
    arrayFlags := s.arrayFlags ++ [isArray]
    pointerFlags := s.pointerFlags ++ [isPointer]
    unionFlags := s.unionFlags ++ [isUnion] }

/-- Mirrors `StructInfo::addFieldOffset` (StructAnalyzer.h:94). -/
def StructInfo.addFieldOffset (s : StructInfo) (newOffset : Nat) : StructInfo :=
  { s with fieldOffset := s.fieldOffset ++ [newOffset] }

/-- Mirrors `StructInfo::addRealSize` (StructAnalyzer.h:95). -/
def StructInfo.addRealSize (s : StructInfo) (size : Nat) : StructInfo :=
  { s with fieldRealSize := s.fieldRealSize ++ [size] }

/-- Mirrors `StructInfo::isEmpty` (StructAnalyzer.h:675): the first
`fieldSize` entry is zero.  The source indexes `fieldSize[0]` without a
bounds check; layouts produced by flattening always have at least one
entry, and the default supplied here makes the function total. -/
def StructInfo.isEmpty (s : StructInfo) : Bool :=
  s.fieldSize.headD 1 == 0

/-- Mirrors `StructInfo::appendFields` (StructAnalyzer.h:96-109):
`fieldSize` is appended only when the other layout is not empty, while the
three flag vectors and `fieldRealSize` are appended unconditionally. -/
def StructInfo.appendFields (s other : StructInfo) : StructInfo :=
  { s with
    fieldSize := if !other.isEmpty then s.fieldSize ++ other.fieldSize else s.fieldSize
    arrayFlags := s.arrayFlags ++ other.arrayFlags
    pointerFlags := s.pointerFlags ++ other.pointerFlags
    unionFlags := s.unionFlags ++ other.unionFlags
    fieldRealSize := s.fieldRealSize ++ other.fieldRealSize }

/-- Mirrors `StructInfo::appendFieldOffset` (StructAnalyzer.h:110-117):
`base` is the last recorded field offset (`fieldOffset.back()`), and every
non-zero relative offset of the other layout is pushed rebased by `base`. -/
def StructInfo.appendFieldOffset (s other : StructInfo) : StructInfo :=
  let base := s.fieldOffset.getLastD 0
  { s with
    fieldOffset :=
      s.fieldOffset ++ (other.fieldOffset.filter (fun i => i != 0)).map (fun i => i + base) }

/-- Mirrors `StructInfo::addContainer` (StructAnalyzer.h:75-77):
`std::set::insert` of the pair, a no-op when already present. -/
def StructInfo.addContainer (s : StructInfo) (st : LStructTy) (offset : Nat) : StructInfo :=
  if (st, offset) ∈ s.containers then s
  else { s with containers := s.containers ++ [(st, offset)] }

/-- Mirrors `StructInfo::getExpandedSize` (StructAnalyzer.h:673). -/
def StructInfo.getExpandedSize (s : StructInfo) : Nat :=
  s.arrayFlags.length

/-- Mirrors `StructInfo::getSize` (StructAnalyzer.h:672). -/
def StructInfo.getSize (s : StructInfo) : Nat :=
  s.offsetMap.length

/-- Mirrors `StructInfo::getContainer` (StructAnalyzer.h:698-705): assert
that the queried struct type is not opaque, then return the queried type
itself when the `(st, offset)` pair is in the container set, else null. -/
def StructInfo.getContainer (s : StructInfo) (st : LStructTy) (offset : Nat) :
    Except String (Option LStructTy) :=
  if st.opq then .error "assertion failed: !st->isOpaque()"
  else if (st, offset) ∈ s.containers then .ok (some st)
  else .ok none

/-- Mirrors the main loop of `StructInfo::getAllocCache`
(StructAnalyzer.h:179-262) over the remaining allocation sites, threading
the `found_generic_alloc` flag: a generic callee sets the flag, a dedicated
callee whose trace succeeds returns its name immediately, and after the
loop the generic bucket name (or the empty string) is returned. -/
def getAllocCacheLoop : List AllocSite → Bool → Nat → String
  | [], foundGeneric, allocSize =>
    if foundGeneric then genericCacheName allocSize else ""
  | site :: rest, foundGeneric, allocSize =>
    let fg := foundGeneric || genericAllocNames.contains site.calleeName
    if specificAllocNames.contains site.calleeName then
      match traceDedicated site with
      | some n => n
      | none => getAllocCacheLoop rest fg allocSize
    else getAllocCacheLoop rest fg allocSize

/-- Mirrors `StructInfo::getAllocCache` (StructAnalyzer.h:179-262). -/
def StructInfo.getAllocCache (s : StructInfo) : String :=
  getAllocCacheLoop s.allocSite false s.allocSize

/-- Declared field of an aggregate, as consumed by the flattening driver:
either a scalar-like field (pointer, scalar, union, array of scalars),
expanding to one field with its byte offset, real size and flags, or a
field embedding an aggregate whose flattened layout is given. -/
inductive FieldDecl where
  | scalar (byteOff : Nat) (realSize : Nat) (isArray isPointer isUnion : Bool)
  | embedded (byteOff : Nat) (subName : String) (sub : StructInfo)

/-- True for the scalar-like case of `FieldDecl`. -/
def FieldDecl.isScalarDecl : FieldDecl → Bool
  | .scalar _ _ _ _ _ => true
  | .embedded _ _ _ => false

/-- State threaded by the flattening driver: the layout under construction,
the running expanded-field count `numField`, and the container
registrations `(embedded type name, (parent type, byte offset))` emitted so
far (each to be applied to the embedded type's layout with
`StructInfo.addContainer`). -/
structure FlattenState where
  si : StructInfo := {}
  numField : Nat := 0
  regs : List (String × LStructTy × Nat) := []

/-- Modelled from the spec: the flattening driver
(`StructAnalyzer::addStructInfo`, declared at StructAnalyzer.h:725 but
defined in a source file that is not part of the repository sources) for
one declared field, per spec section 4.2.  A scalar-like field records its
expanded index in the offset map and contributes one expanded field with
size entry 1, its flags, its byte offset and its real size; a field
embedding an aggregate records its expanded index, pushes its own byte
offset (the base used by `appendFieldOffset`), splices the embedded
layout's vectors with `appendFields` and `appendFieldOffset` (both taken
from the source header), advances `numField` by the embedded layout's
expanded-field count, and emits the container registration
`(embedded, (parent, byte offset))` per spec step 6. -/
def flattenField (parent : LStructTy) (fs : FlattenState) : FieldDecl → FlattenState
  | .scalar off rsz isArray isPointer isUnion =>
    { si := ((((fs.si.addOffsetMap fs.numField).addField 1 isArray isPointer
          isUnion).addFieldOffset off).addRealSize rsz)
      numField := fs.numField + 1
      regs := fs.regs }
  | .embedded off subName sub =>
    { si := (((fs.si.addOffsetMap fs.numField).addFieldOffset off).appendFields
          sub).appendFieldOffset sub
      numField := fs.numField + sub.getExpandedSize
      regs := fs.regs ++ [(subName, (parent, off))] }

/-- Modelled from the spec: the flattening driver's loop over the declared
fields in declaration order (spec section 4.2 step 1). -/
def flattenFields (parent : LStructTy) (decls : List FieldDecl) (fs : FlattenState) :
    FlattenState :=
  decls.foldl (flattenField parent) fs

/-- Modelled from the spec: flattening a whole aggregate from the empty
state. -/
def flattenStruct (parent : LStructTy) (decls : List FieldDecl) : FlattenState :=
  flattenFields parent decls {}

/-- Comparison operand as distinguished by `StructInfo::dumpCmpSrc`
(StructAnalyzer.h:529-580): a GEP instruction (carrying its pointer operand
type and its operand 2), a constant integer, a constant null pointer, an
intrinsic call, a call (callee name when known), a function argument, a
bitcast, or anything else.  Printed-value placeholders carry the text the
source would print to the error stream. -/
inductive CmpVal where
  | gep (ptrOperandTy : LTy) (idx2 : CmpVal)
  | constInt (n : Int)
  | constNull
  | intrinsic (name : String)
  | callVal (calleeName : Option String)
  | argument (txt : String)
  | bitcast (txt : String)
  | unknownVal (txt : String)
deriving DecidableEq, Repr

/-- Mirrors `StructInfo::dumpCmpSrc` (StructAnalyzer.h:529-580) as the
rendered descriptor text, with the three `assert` calls in the GEP branch
modelled as fatal errors: the pointer operand type must be a pointer, its
element type must be a struct, and operand 2 must be a constant integer.
The struct name is rendered from the struct type directly (`getScopeName`
is defined outside this repository's sources). -/
def dumpCmpSrc : CmpVal → Except String String
  | .gep ptrOperandTy idx2 =>
    match ptrOperandTy with
    | .ptrTy baseType =>
      match baseType with
      | .structTy st =>
        match idx2 with
        | .constInt n => .ok ("| <" ++ st.name ++ ", " ++ toString n ++ "> |")
        | _ => .error "assertion failed: GEP index is not constant"
      | _ => .error "assertion failed: stType != nullptr"
    | _ => .error "assertion failed: ptrType != nullptr"
  | .constInt n => .ok ("| <C, " ++ toString n ++ "> |")
  | .constNull => .ok "| <C, null> |"
  | .intrinsic name => .ok ("| <Intrinsic, " ++ name ++ "> |")
  | .callVal (some name) => .ok ("| <CallInst, " ++ name ++ "> |")
  | .callVal none => .ok "| <CallInst, > |"
  | .argument txt => .ok ("| <Arg, " ++ txt ++ "> |")
  | .bitcast txt => .ok ("| <BitCast, " ++ txt ++ "> |")
  | .unknownVal txt => .ok ("| <Unknown, " ++ txt ++ "> |")

/-- Integer comparison predicates distinguished by `StructInfo::dumpPred`
(StructAnalyzer.h:582-652). -/
inductive ICmpPred where
  | slt | ult | sgt | ugt | ule | sle | sge | uge | eq | ne | otherPred
deriving DecidableEq, Repr

/-- Mirrors `StructInfo::dumpPred` (StructAnalyzer.h:582-652): for each
handled predicate class, branch outcome 0 (true branch) renders the
operator, outcome 1 (false branch) renders its negation, and any other
outcome (both branches) renders the operator followed by a star; unhandled
predicates render nothing. -/
def dumpPred (pred : ICmpPred) (branchTaken : Nat) : String :=
  match pred with
  | .slt | .ult =>
    if branchTaken = 0 then " [<] " else if branchTaken = 1 then " [>=] " else " [<]* "
  | .sgt | .ugt =>
    if branchTaken = 0 then " [>] " else if branchTaken = 1 then " [<=] " else " [>]* "
  | .ule | .sle =>
    if branchTaken = 0 then " [<=] " else if branchTaken = 1 then " [>] " else " [<=]* "
  | .sge | .uge =>
    if branchTaken = 0 then " [>=] " else if branchTaken = 1 then " [<] " else " [>=]* "
  | .eq =>
    if branchTaken = 0 then " [==] " else if branchTaken = 1 then " [!=] " else " [==]* "
  | .ne =>
    if branchTaken = 0 then " [!=] " else if branchTaken = 1 then " [==] " else " [!=]* "
  | .otherPred => ""

/-- Operator symbol of each comparison class handled by `dumpPred`, stated
from the spec's reading of the report format. -/
def opSymbol : ICmpPred → Option String
  | .slt | .ult => some "<"
  | .sgt | .ugt => some ">"
  | .ule | .sle => some "<="
  | .sge | .uge => some ">="
  | .eq => some "=="
  | .ne => some "!="
  | .otherPred => none

/-- Negation of a rendered comparison operator, stated from the spec. -/
def negatedSymbol : String → String
  | "<" => ">="
  | ">" => "<="
  | "<=" => ">"
  | ">=" => "<"
  | "==" => "!="
  | "!=" => "=="
  | s => s

/-- Alignment of the three flag vectors and the real-size vector with the
expanded-field count (`getExpandedSize`, the length of `arrayFlags`). -/
def flagsAligned (s : StructInfo) : Prop :=
  s.pointerFlags.length = s.getExpandedSize ∧ s.unionFlags.length = s.getExpandedSize ∧
    s.fieldRealSize.length = s.getExpandedSize

/-- Alignment of all five per-field vectors with the expanded-field
count. -/
def allAligned (s : StructInfo) : Prop :=
  flagsAligned s ∧ s.fieldSize.length = s.getExpandedSize

/-- Concrete `SiteInfo` record used by witnesses. -/
def siZero : SiteInfo :=
  { tag := 0, fromSt := none, fromValue := none, lenSt := none, lenValue := none,
    leakCheckMap := [] }

/-- Layout of an empty struct as the flattening produces it: one expanded
entry whose `fieldSize` is 0, so that `isEmpty` holds. -/
def emptyFieldLayout : StructInfo :=
  (({} : StructInfo).addField 0 false false false).addRealSize 0

/-- Concrete flattened two-field layout used as an embedded aggregate by
witnesses. -/
def bLayout : StructInfo :=
  { arrayFlags := [false, false], pointerFlags := [false, true],
    unionFlags := [false, false], fieldSize := [1, 1],
    offsetMap := [0, 1], fieldOffset := [0, 8], fieldRealSize := [4, 8] }

/-- Concrete allocation site calling the generic allocator `kmalloc`. -/
def kmallocSite : AllocSite :=
  { calleeName := "kmalloc", funcArg0Ty := .otherTy, funcArg0 := .otherVal,
    callArg0 := .otherVal, block := [], pos := 0 }

/-- Concrete dedicated-cache allocation site whose backward trace fails at
the first step (no producer of argument 0). -/
def dedFailSite : AllocSite :=
  { calleeName := "kmem_cache_alloc", funcArg0Ty := .otherTy, funcArg0 := .otherVal,
    callArg0 := .otherVal, block := [], pos := 0 }

/-- Concrete allocation site calling a function in neither allocator
set. -/
def fooSite : AllocSite :=
  { calleeName := "foo", funcArg0Ty := .otherTy, funcArg0 := .otherVal,
    callArg0 := .otherVal, block := [], pos := 0 }

/- ------------------------------------------------------------------ -/
/- Theorems.                                                          -/
/- ------------------------------------------------------------------ -/

theorem assocFind_replaceEntry (li : LeakRegistry) (offset : Nat)
    (newl : List (Nat × SiteInfo)) (h : (assocFind offset li).isSome = true) :
    assocFind offset (replaceEntry li offset newl) = some newl := by
  induction li with
  | nil => simp [assocFind] at h
  | cons kv rest ih =>
    obtain ⟨k, w⟩ := kv
    by_cases hk : k = offset
    · subst hk
      simp [replaceEntry, assocFind]
    · rw [assocFind, if_neg hk] at h
      rw [replaceEntry, if_neg hk, assocFind, if_neg hk]
      exact ih h

/-- Claim C2 (amended): addLeakSourceInfo at an absent `(offset, V)` key
stores the record, retrievable by getSiteInfo; at an existing `(offset, V)`
key it reaches the warning plus `assert(false)` path regardless of whether
the new content equals the stored one. -/
theorem addLeakSourceInfo_contract (li : LeakRegistry) (offset v : Nat) (si : SiteInfo) :
    (getSiteInfo li offset v = none →
      ∃ li2, addLeakSourceInfo li offset v si = .ok li2 ∧
        getSiteInfo li2 offset v = some si) ∧
    (getSiteInfo li offset v ≠ none →
      addLeakSourceInfo li offset v si = .error "Are we trying to update siteInfo?") := by
  cases h1 : assocFind offset li with
  | none =>
    refine ⟨fun _ => ⟨(offset, [(v, si)]) :: li, ?_, ?_⟩, fun hne => ?_⟩
    · simp only [addLeakSourceInfo, h1]
    · simp [getSiteInfo, assocFind]
    · exact absurd (by simp only [getSiteInfo, h1]) hne
  | some lsi =>
    cases h2 : assocFind v lsi with
    | none =>
      refine ⟨fun _ => ⟨replaceEntry li offset ((v, si) :: lsi), ?_, ?_⟩, fun hne => ?_⟩
      · simp only [addLeakSourceInfo, h1, h2]
      · simp only [getSiteInfo,
          assocFind_replaceEntry li offset ((v, si) :: lsi) (by simp [h1])]
        simp [assocFind]
      · exact absurd (by simp only [getSiteInfo, h1, h2]) hne
    | some w =>
      refine ⟨fun hnone => ?_, fun _ => ?_⟩
      · simp only [getSiteInfo, h1, h2] at hnone
        exact Option.noConfusion hnone
      · simp only [addLeakSourceInfo, h1, h2]

/-- Witness for C2: on the empty registry, inserting at offset 0 and site
value 5 succeeds and the record is retrievable. -/
theorem addLeakSourceInfo_contract_witness :
    ∃ li2, addLeakSourceInfo [] 0 5 siZero = .ok li2 ∧
      getSiteInfo li2 0 5 = some siZero :=
  (addLeakSourceInfo_contract [] 0 5 siZero).1 rfl

/-- Counterexample for C2 as stated: re-recording the very same content at
an existing `(offset, V)` key is not a no-op but hits the fatal path. -/
theorem addLeakSourceInfo_identical_rewrite_fatal :
    getSiteInfo [(0, [(5, siZero)])] 0 5 = some siZero ∧
    addLeakSourceInfo [(0, [(5, siZero)])] 0 5 siZero =
      .error "Are we trying to update siteInfo?" :=
  ⟨rfl, rfl⟩

/-- Claim C3 (amended): a paired `addField`/`addRealSize` step preserves
alignment of all five per-field vectors with the expanded-field count;
`appendFields` preserves it when the spliced layout is not empty; the
three flag vectors and the real-size vector stay aligned under
`appendFields` unconditionally; but splicing an `isEmpty` layout leaves
`fieldSize` unchanged while the expanded-field count still grows by the
spliced layout's expanded size, so the five-vector invariant breaks. -/
theorem fieldVectors_alignment :
    (∀ (s : StructInfo) (n : Nat) (a p u : Bool) (sz : Nat), allAligned s →
      allAligned ((s.addField n a p u).addRealSize sz)) ∧
    (∀ s other : StructInfo, allAligned s → allAligned other → other.isEmpty = false →
      allAligned (s.appendFields other)) ∧
    (∀ s other : StructInfo, flagsAligned s → flagsAligned other →
      flagsAligned (s.appendFields other)) ∧
    (∀ s other : StructInfo, other.isEmpty = true →
      (s.appendFields other).fieldSize = s.fieldSize ∧
      (s.appendFields other).getExpandedSize = s.getExpandedSize + other.getExpandedSize) := by
  refine ⟨?_, ?_, ?_, ?_⟩
  · rintro s n a p u sz ⟨⟨h1, h2, h3⟩, h4⟩
    refine ⟨⟨?_, ?_, ?_⟩, ?_⟩ <;>
      simp_all [StructInfo.addField, StructInfo.addRealSize, StructInfo.getExpandedSize]
  · rintro s other ⟨⟨h1, h2, h3⟩, h4⟩ ⟨⟨g1, g2, g3⟩, g4⟩ hne
    refine ⟨⟨?_, ?_, ?_⟩, ?_⟩ <;>
      simp_all [StructInfo.appendFields, StructInfo.getExpandedSize]
  · rintro s other ⟨h1, h2, h3⟩ ⟨g1, g2, g3⟩
    refine ⟨?_, ?_, ?_⟩ <;>
      simp_all [StructInfo.appendFields, StructInfo.getExpandedSize]
  · intro s other he
    constructor <;>
      simp [StructInfo.appendFields, StructInfo.getExpandedSize, he]

/-- Witness for C3: a paired `addField`/`addRealSize` step on the empty
layout keeps all five vectors aligned. -/
theorem fieldVectors_alignment_witness :
    allAligned ((({} : StructInfo).addField 1 false false false).addRealSize 4) :=
  fieldVectors_alignment.1 {} 1 false false false 4 ⟨⟨rfl, rfl, rfl⟩, rfl⟩

/-- Counterexample for C3 as stated: splicing an `isEmpty` layout (built by
the field operations themselves and satisfying the invariant) leaves
`fieldSize` with 0 entries while `arrayFlags` has 1. -/
theorem appendFields_empty_breaks_invariant :
    emptyFieldLayout.isEmpty = true ∧
    (({} : StructInfo).appendFields emptyFieldLayout).fieldSize.length = 0 ∧
    (({} : StructInfo).appendFields emptyFieldLayout).arrayFlags.length = 1 :=
  ⟨rfl, rfl, rfl⟩

/-- Claim C10: getContainer returns the queried (non-opaque) struct type
itself exactly when the `(st, offset)` pair is in the container set, null
when absent, and hits the assertion for an opaque struct type. -/
theorem getContainer_queried_type (s : StructInfo) (st : LStructTy) (off : Nat) :
    (st.opq = false →
      ((st, off) ∈ s.containers → s.getContainer st off = .ok (some st)) ∧
      ((st, off) ∉ s.containers → s.getContainer st off = .ok none)) ∧
    (st.opq = true →
      s.getContainer st off = .error "assertion failed: !st->isOpaque()") := by
  unfold StructInfo.getContainer
  constructor
  · intro hop
    constructor
    · intro hm
      rw [if_neg (by simp [hop]), if_pos hm]
    · intro hm
      rw [if_neg (by simp [hop]), if_neg hm]
  · intro hop
    rw [if_pos (by simp [hop])]

/-- Witness for C10: a concrete layout containing `(struct.foo, 8)` answers
the containment query with the queried type itself. -/
theorem getContainer_queried_type_witness :
    StructInfo.getContainer { containers := [(⟨"struct.foo", false⟩, 8)] }
        ⟨"struct.foo", false⟩ 8 = .ok (some ⟨"struct.foo", false⟩) :=
  ((getContainer_queried_type { containers := [(⟨"struct.foo", false⟩, 8)] }
      ⟨"struct.foo", false⟩ 8).1 rfl).1 (by simp)

/-- Claim C8: in the GEP branch of dumpCmpSrc, a non-pointer base operand
type, a non-struct pointee type, and a non-constant operand-2 index each
abort via the corresponding assertion instead of rendering a degraded
descriptor. -/
theorem dumpCmpSrc_gep_asserts :
    (∀ (ty : LTy) (idx : CmpVal), ty.isPointerTy = false →
      ∃ m, dumpCmpSrc (.gep ty idx) = .error m) ∧
    (∀ (elem : LTy) (idx : CmpVal), (∀ st, elem ≠ .structTy st) →
      ∃ m, dumpCmpSrc (.gep (.ptrTy elem) idx) = .error m) ∧
    (∀ (st : LStructTy) (idx : CmpVal), (∀ n : Int, idx ≠ .constInt n) →
      ∃ m, dumpCmpSrc (.gep (.ptrTy (.structTy st)) idx) = .error m) := by
  refine ⟨?_, ?_, ?_⟩
  · intro ty idx h
    cases ty with
    | ptrTy elem => simp [LTy.isPointerTy] at h
    | structTy st => exact ⟨_, rfl⟩
    | arrTy e => exact ⟨_, rfl⟩
    | otherTy => exact ⟨_, rfl⟩
  · intro elem idx h
    cases elem with
    | structTy st => exact absurd rfl (h st)
    | ptrTy e => exact ⟨_, rfl⟩
    | arrTy e => exact ⟨_, rfl⟩
    | otherTy => exact ⟨_, rfl⟩
  · intro st idx h
    cases idx with
    | constInt n => exact absurd rfl (h n)
    | gep t i => exact ⟨_, rfl⟩
    | constNull => exact ⟨_, rfl⟩
    | intrinsic nm => exact ⟨_, rfl⟩
    | callVal c => exact ⟨_, rfl⟩
    | argument t => exact ⟨_, rfl⟩
    | bitcast t => exact ⟨_, rfl⟩
    | unknownVal t => exact ⟨_, rfl⟩

/-- Witness for C8: a GEP whose operand 2 is a constant null pointer (not a
constant integer) makes dumpCmpSrc abort. -/
theorem dumpCmpSrc_gep_asserts_witness :
    ∃ m, dumpCmpSrc (.gep (.ptrTy (.structTy ⟨"struct.foo", false⟩)) .constNull) =
      .error m :=
  dumpCmpSrc_gep_asserts.2.2 ⟨"struct.foo", false⟩ .constNull
    (fun _ h => CmpVal.noConfusion h)

/-- Claim C9: for each handled comparison class, branch outcome 0 renders
the operator itself, outcome 1 renders its negation, and any other outcome
(both branches) renders the operator followed by a star. -/
theorem dumpPred_narrows (p : ICmpPred) (op : String) (h : opSymbol p = some op) :
    dumpPred p 0 = " [" ++ op ++ "] " ∧
    dumpPred p 1 = " [" ++ negatedSymbol op ++ "] " ∧
    ∀ bt : Nat, bt ≠ 0 → bt ≠ 1 → dumpPred p bt = " [" ++ op ++ "]* " := by
  cases p <;> first
    | exact Option.noConfusion h
    | · injection h with h
        subst h
        refine ⟨rfl, rfl, fun bt h0 h1 => ?_⟩
        simp only [dumpPred]
        rw [if_neg h0, if_neg h1]
        decide

/-- Witness for C9: a signed less-than comparison reached by both branches
renders as the starred operator. -/
theorem dumpPred_narrows_witness : dumpPred .slt 2 = " [<]* " :=
  (dumpPred_narrows .slt "<" rfl).2.2 2 (by decide) (by decide)

theorem getAllocCacheLoop_skip (site : AllocSite) (rest : List AllocSite) (fg : Bool)
    (sz : Nat) (h : traceDedicated site = none) :
    getAllocCacheLoop (site :: rest) fg sz =
      getAllocCacheLoop rest (fg || genericAllocNames.contains site.calleeName) sz := by
  simp only [getAllocCacheLoop, h]
  split <;> rfl

theorem getAllocCacheLoop_cons_found (site : AllocSite) (rest : List AllocSite) (fg : Bool)
    (sz : Nat) (n : String) (h : dedicatedNameOfSite site = some n) :
    getAllocCacheLoop (site :: rest) fg sz = n := by
  unfold dedicatedNameOfSite at h
  by_cases hs : specificAllocNames.contains site.calleeName = true
  · rw [if_pos hs] at h
    simp only [getAllocCacheLoop]
    rw [if_pos hs, h]
  · rw [if_neg hs] at h
    exact Option.noConfusion h

theorem getAllocCacheLoop_cons_none (site : AllocSite) (rest : List AllocSite) (fg : Bool)
    (sz : Nat) (h : dedicatedNameOfSite site = none) :
    getAllocCacheLoop (site :: rest) fg sz =
      getAllocCacheLoop rest (fg || genericAllocNames.contains site.calleeName) sz := by
  unfold dedicatedNameOfSite at h
  by_cases hs : specificAllocNames.contains site.calleeName = true
  · rw [if_pos hs] at h
    exact getAllocCacheLoop_skip site rest fg sz h
  · simp only [getAllocCacheLoop]
    rw [if_neg hs]

theorem getAllocCacheLoop_found (sites : List AllocSite) (fg : Bool) (sz : Nat)
    (n : String) (h : sites.findSome? dedicatedNameOfSite = some n) :
    getAllocCacheLoop sites fg sz = n := by
  induction sites generalizing fg with
  | nil => simp [List.findSome?] at h
  | cons site rest ih =>
    rw [List.findSome?_cons] at h
    cases hd : dedicatedNameOfSite site with
    | some v =>
      rw [hd] at h
      injection h with h
      subst h
      exact getAllocCacheLoop_cons_found site rest fg sz v hd
    | none =>
      rw [hd] at h
      exact (getAllocCacheLoop_cons_none site rest fg sz hd).trans (ih _ h)

theorem getAllocCacheLoop_noDedicated (sites : List AllocSite) (fg : Bool) (sz : Nat)
    (h : ∀ site ∈ sites, dedicatedNameOfSite site = none) :
    getAllocCacheLoop sites fg sz =
      cond (fg || sites.any fun x => genericAllocNames.contains x.calleeName)
        (genericCacheName sz) "" := by
  induction sites generalizing fg with
  | nil => cases fg <;> rfl
  | cons site rest ih =>
    rw [getAllocCacheLoop_cons_none site rest fg sz (h site (by simp))]
    rw [ih _ (fun x hx => h x (by simp [hx]))]
    simp only [List.any_cons]
    rw [Bool.or_assoc]

theorem generic_not_specific (n : String) (h : genericAllocNames.contains n = true) :
    specificAllocNames.contains n = false := by
  have hm : n ∈ genericAllocNames := by simpa using h
  fin_cases hm <;> rfl

/-- Claim C7 (amended): getProducerOfArgument0 returns operand 0 itself
whenever that operand is an instruction, even when the allocation call is
first in its block; only when the operand is not an instruction does it
inspect the block, returning the immediately preceding instruction when one
exists and nothing when the call is first in its block, in which case
getAllocCache skips the site. -/
theorem getProducerOfArgument0_behavior :
    (∀ (v : LVal) (bb : List LVal) (pos : Nat), v.isInstruction = true →
      getProducerOfArgument0 v bb pos = some v) ∧
    (∀ (v : LVal) (bb : List LVal) (pos : Nat), v.isInstruction = false → pos ≠ 0 →
      getProducerOfArgument0 v bb pos = bb[pos - 1]?) ∧
    (∀ (v : LVal) (bb : List LVal), v.isInstruction = false →
      getProducerOfArgument0 v bb 0 = none) ∧
    (∀ (site : AllocSite) (rest : List AllocSite) (fg : Bool) (sz : Nat),
      site.callArg0.isInstruction = false → site.pos = 0 →
      getAllocCacheLoop (site :: rest) fg sz =
        getAllocCacheLoop rest (fg || genericAllocNames.contains site.calleeName) sz) := by
  refine ⟨?_, ?_, ?_, ?_⟩
  · intro v bb pos h
    simp [getProducerOfArgument0, h]
  · intro v bb pos h hp
    simp [getProducerOfArgument0, h, hp]
  · intro v bb h
    simp [getProducerOfArgument0, h]
  · intro site rest fg sz h hp
    have ht : traceDedicated site = none := by
      simp [traceDedicated, getProducerOfArgument0, h, hp]
    exact getAllocCacheLoop_skip site rest fg sz ht

/-- Witness for C7: an operand that is a load is returned directly. -/
theorem getProducerOfArgument0_behavior_witness :
    getProducerOfArgument0 (LVal.load LVal.otherVal) [] 5 =
      some (LVal.load LVal.otherVal) :=
  getProducerOfArgument0_behavior.1 (LVal.load LVal.otherVal) [] 5 rfl

/-- Counterexample for C7 as stated: a call that is the first instruction
in its block still yields a producer when its operand 0 is itself an
instruction, instead of aborting the trace. -/
theorem getProducerOfArgument0_first_in_block :
    getProducerOfArgument0 (LVal.load LVal.otherVal) [LVal.otherInst] 0 =
      some (LVal.load LVal.otherVal) ∧
    getProducerOfArgument0 (LVal.load LVal.otherVal) [LVal.otherInst] 0 ≠ none :=
  ⟨rfl, fun h => Option.noConfusion h⟩

/-- Claim C6: getAllocCache returns the first recoverable dedicated-cache
name over the recorded sites; with no recoverable dedicated name but at
least one generic-allocator site it returns the generic size-bucket name;
with no site in either allocator set it returns the empty string. -/
theorem getAllocCache_priority (s : StructInfo) :
    (∀ n : String, s.allocSite.findSome? dedicatedNameOfSite = some n →
      s.getAllocCache = n) ∧
    (s.allocSite.findSome? dedicatedNameOfSite = none →
      (∃ site ∈ s.allocSite, genericAllocNames.contains site.calleeName = true) →
      s.getAllocCache = genericCacheName s.allocSize) ∧
    ((∀ site ∈ s.allocSite, genericAllocNames.contains site.calleeName = false ∧
        specificAllocNames.contains site.calleeName = false) →
      s.getAllocCache = "") := by
  refine ⟨fun n h => getAllocCacheLoop_found _ _ _ _ h, fun h hg => ?_, fun h => ?_⟩
  · have hall : ∀ site ∈ s.allocSite, dedicatedNameOfSite site = none :=
      List.findSome?_eq_none_iff.mp h
    rw [StructInfo.getAllocCache, getAllocCacheLoop_noDedicated _ _ _ hall]
    have hany : (s.allocSite.any fun x => genericAllocNames.contains x.calleeName) = true := by
      rcases hg with ⟨site, hs, hgen⟩
      exact List.any_eq_true.mpr ⟨site, hs, hgen⟩
    rw [Bool.false_or, hany, Bool.cond_true]
  · have hall : ∀ site ∈ s.allocSite, dedicatedNameOfSite site = none := by
      intro site hs
      unfold dedicatedNameOfSite
      rw [if_neg (ne_true_of_eq_false (h site hs).2)]
    rw [StructInfo.getAllocCache, getAllocCacheLoop_noDedicated _ _ _ hall]
    have hany : (s.allocSite.any fun x => genericAllocNames.contains x.calleeName) = false := by
      simp only [List.any_eq_false]
      intro x hx
      exact ne_true_of_eq_false (h x hx).1
    rw [Bool.false_or, hany, Bool.cond_false]

/-- Witness for C6: a single site calling a function in neither allocator
set yields the empty string. -/
theorem getAllocCache_priority_witness :
    StructInfo.getAllocCache { allocSite := [fooSite], allocSize := 4 } = "" :=
  (getAllocCache_priority { allocSite := [fooSite], allocSize := 4 }).2.2
    (by
      intro site hs
      rw [List.mem_singleton] at hs
      subst hs
      exact ⟨rfl, rfl⟩)

/-- Claim C5: every recoverable failure of the dedicated-cache backward
trace abandons only that site (the loop continues with the next site), and
when every dedicated trace fails getAllocCache degrades to the generic
bucket name or the empty string; the enumerated failure shapes (no
preceding instruction, no descriptor aggregate type, wrong cache-descriptor
type name, no backing global variable, no matching creation call among the
global's users, and a creation call whose name argument is not a constant
expression) each make the trace yield nothing rather than abort. -/
theorem getAllocCache_soft_failures :
    (∀ (site : AllocSite) (rest : List AllocSite) (fg : Bool) (sz : Nat),
      traceDedicated site = none →
      getAllocCacheLoop (site :: rest) fg sz =
        getAllocCacheLoop rest (fg || genericAllocNames.contains site.calleeName) sz) ∧
    (∀ s : StructInfo, (∀ site ∈ s.allocSite, traceDedicated site = none) →
      s.getAllocCache = genericCacheName s.allocSize ∨ s.getAllocCache = "") ∧
    (∀ site : AllocSite, site.callArg0.isInstruction = false → site.pos = 0 →
      traceDedicated site = none) ∧
    (∀ site : AllocSite, getStructType site.funcArg0Ty = none →
      traceDedicated site = none) ∧
    (∀ (site : AllocSite) (st : LStructTy), getStructType site.funcArg0Ty = some st →
      st.name ≠ "struct.kmem_cache" → traceDedicated site = none) ∧
    (∀ (site : AllocSite) (src : LVal), site.funcArg0.asGlobal = none →
      getProducerOfArgument0 site.callArg0 site.block site.pos = some (.load src) →
      src.asGlobal = none → traceDedicated site = none) ∧
    (∀ users : List LVal, (∀ u ∈ users, traceUser u = none) →
      scanUsers users = none) ∧
    (∀ cname : String, traceUser (.store (.callInst cname .argVal)) = none) := by
  refine ⟨getAllocCacheLoop_skip, ?_, ?_, ?_, ?_, ?_, ?_, ?_⟩
  · intro s h
    have hall : ∀ site ∈ s.allocSite, dedicatedNameOfSite site = none := by
      intro site hs
      unfold dedicatedNameOfSite
      split
      · exact h site hs
      · rfl
    rw [StructInfo.getAllocCache, getAllocCacheLoop_noDedicated _ _ _ hall]
    cases hc : (false || s.allocSite.any fun x => genericAllocNames.contains x.calleeName) with
    | true => exact Or.inl rfl
    | false => exact Or.inr rfl
  · intro site h hp
    simp [traceDedicated, getProducerOfArgument0, h, hp]
  · intro site h
    cases hpr : getProducerOfArgument0 site.callArg0 site.block site.pos with
    | none => simp [traceDedicated, hpr]
    | some prev => simp [traceDedicated, hpr, h]
  · intro site st h hne
    cases hpr : getProducerOfArgument0 site.callArg0 site.block site.pos with
    | none => simp [traceDedicated, hpr]
    | some prev =>
      have hb : (st.name == "struct.kmem_cache") = false := by
        simpa using hne
      simp only [traceDedicated, hpr, h]
      split
      · split
        · rfl
        · simp [hb]
      · rfl
  · intro site src h1 hpr h2
    cases hst : getStructType site.funcArg0Ty with
    | none => simp [traceDedicated, hpr, hst]
    | some st =>
      simp only [traceDedicated, hpr, hst, h1, h2]
      exact ite_self none
  · intro users h
    induction users with
    | nil => rfl
    | cons u rest ih =>
      rw [scanUsers, h u (by simp)]
      exact ih (fun x hx => h x (by simp [hx]))
  · intro cname
    simp [traceUser]

/-- Witness for C5: a dedicated-cache site whose trace fails at the first
step degrades the whole query to the generic fallback or the empty
string. -/
theorem getAllocCache_soft_failures_witness :
    StructInfo.getAllocCache { allocSite := [dedFailSite], allocSize := 100 } =
        genericCacheName 100 ∨
    StructInfo.getAllocCache { allocSite := [dedFailSite], allocSize := 100 } = "" :=
  getAllocCache_soft_failures.2.1 { allocSite := [dedFailSite], allocSize := 100 }
    (by
      intro site hs
      rw [List.mem_singleton] at hs
      subst hs
      rfl)

theorem size_le_two_pow (size : Nat) : size ≤ 2 ^ (3 + size) :=
  calc size ≤ 2 ^ size := Nat.le_of_lt (Nat.lt_two_pow size)
  _ ≤ 2 ^ (3 + size) := Nat.pow_le_pow_right (by norm_num) (by omega)

theorem bucketLoopAux_le (f i size : Nat) : i ≤ bucketLoopAux f i size := by
  induction f generalizing i with
  | zero => simp [bucketLoopAux]
  | succ f ih =>
    rw [bucketLoopAux]
    by_cases hc : 2 ^ i < size
    · rw [if_pos hc]
      exact le_trans (Nat.le_succ i) (ih (i + 1))
    · rw [if_neg hc]

theorem bucketLoopAux_ge (f i size : Nat) (h : size ≤ 2 ^ (i + f)) :
    size ≤ 2 ^ bucketLoopAux f i size := by
  induction f generalizing i with
  | zero => simpa using h
  | succ f ih =>
    rw [bucketLoopAux]
    by_cases hc : 2 ^ i < size
    · rw [if_pos hc]
      refine ih (i + 1) ?_
      rw [show i + 1 + f = i + (f + 1) by omega]
      exact h
    · rw [if_neg hc]
      omega



theorem bucketLoopAux_tight (f i size : Nat) :
    bucketLoopAux f i size = i ∨ 2 ^ (bucketLoopAux f i size - 1) < size := by
  induction f generalizing i with
  | zero => exact Or.inl rfl
  | succ f ih =>
    rw [bucketLoopAux]
    by_cases hc : 2 ^ i < size
    · rw [if_pos hc]
      rcases ih (i + 1) with he | hlt
      · right
        rw [he]
        simpa using hc
      · right
        exact hlt
    · rw [if_neg hc]
      exact Or.inl rfl

/-- Claim C1 (amended): with only generic-allocator sites recorded,
getAllocCache returns the generic size-bucket name; the bucket exponent is
the least exponent at least 3 whose power of two reaches the allocation
size; the bucket range [4096, 8192) is named "kmalloc-8k", [2048, 4096)
"kmalloc-4k", [1024, 2048) "kmalloc-2k", [512, 1024) "kmalloc-1k", and any
other bucket gets the literal numeric name; in particular size 500 resolves
to "kmalloc-1k", size 3000 to "kmalloc-8k", and size 9000 to
"kmalloc-16384". -/
theorem getAllocCache_generic_buckets :
    (∀ s : StructInfo, s.allocSite ≠ [] →
      (∀ site ∈ s.allocSite, genericAllocNames.contains site.calleeName = true) →
      s.getAllocCache = genericCacheName s.allocSize) ∧
    genericCacheName 500 = "kmalloc-1k" ∧
    genericCacheName 3000 = "kmalloc-8k" ∧
    genericCacheName 9000 = "kmalloc-16384" ∧
    (∀ size : Nat, 3 ≤ kmallocBucketExp size ∧ size ≤ 2 ^ kmallocBucketExp size ∧
      (kmallocBucketExp size = 3 ∨ 2 ^ (kmallocBucketExp size - 1) < size)) := by
  refine ⟨?_, rfl, rfl, rfl, ?_⟩
  · intro s hne hall
    have hall2 : ∀ site ∈ s.allocSite, dedicatedNameOfSite site = none := by
      intro site hs
      unfold dedicatedNameOfSite
      rw [if_neg (ne_true_of_eq_false
        (generic_not_specific site.calleeName (hall site hs)))]
    rw [StructInfo.getAllocCache, getAllocCacheLoop_noDedicated _ _ _ hall2]
    have hany : (s.allocSite.any fun x => genericAllocNames.contains x.calleeName) = true := by
      cases hsl : s.allocSite with
      | nil => exact absurd hsl hne
      | cons a rest =>
        have ha := hall a (by rw [hsl]; simp)
        simp only [List.any_cons]
        rw [ha, Bool.true_or]
    rw [Bool.false_or, hany, Bool.cond_true]
  · intro size
    simp only [kmallocBucketExp]
    exact ⟨bucketLoopAux_le size 3 size,
      bucketLoopAux_ge size 3 size (size_le_two_pow size),
      bucketLoopAux_tight size 3 size⟩

/-- Witness for C1: one kmalloc site with allocation size 500 resolves to
the generic bucket name, which is "kmalloc-1k". -/
theorem getAllocCache_generic_buckets_witness :
    StructInfo.getAllocCache { allocSite := [kmallocSite], allocSize := 500 } =
      genericCacheName 500 :=
  getAllocCache_generic_buckets.1 { allocSite := [kmallocSite], allocSize := 500 }
    (by simp)
    (by
      intro site hs
      rw [List.mem_singleton] at hs
      subst hs
      rfl)

/-- Counterexample for C1 as stated: allocation size 3000 resolves to
"kmalloc-8k" (the bucket 4096 carries the name "kmalloc-8k" in the code),
not "kmalloc-4k". -/
theorem getAllocCache_size3000 :
    StructInfo.getAllocCache { allocSize := 3000, allocSite := [kmallocSite] } =
      "kmalloc-8k" ∧ ("kmalloc-8k" : String) ≠ "kmalloc-4k" :=
  ⟨rfl, by decide⟩


theorem getLastD_concat (l : List Nat) (a d : Nat) : (l ++ [a]).getLastD d = a := by
  induction l generalizing d with
  | nil => rfl
  | cons x xs ih =>
    rw [List.cons_append, List.getLastD_cons]
    exact ih x

theorem flattenField_scalar (parent : LStructTy) (fs : FlattenState)
    (off rsz : Nat) (a p u : Bool) :
    (flattenField parent fs (.scalar off rsz a p u)).si.arrayFlags
        = fs.si.arrayFlags ++ [a] ∧
    (flattenField parent fs (.scalar off rsz a p u)).si.pointerFlags
        = fs.si.pointerFlags ++ [p] ∧
    (flattenField parent fs (.scalar off rsz a p u)).si.unionFlags
        = fs.si.unionFlags ++ [u] ∧
    (flattenField parent fs (.scalar off rsz a p u)).si.fieldRealSize
        = fs.si.fieldRealSize ++ [rsz] ∧
    (flattenField parent fs (.scalar off rsz a p u)).si.fieldOffset
        = fs.si.fieldOffset ++ [off] ∧
    (flattenField parent fs (.scalar off rsz a p u)).si.offsetMap
        = fs.si.offsetMap ++ [fs.numField] ∧
    (flattenField parent fs (.scalar off rsz a p u)).numField = fs.numField + 1 ∧
    (flattenField parent fs (.scalar off rsz a p u)).regs = fs.regs := by
  refine ⟨?_, ?_, ?_, ?_, ?_, ?_, ?_, ?_⟩ <;>
    simp [flattenField, StructInfo.addOffsetMap, StructInfo.addField,
      StructInfo.addFieldOffset, StructInfo.addRealSize]

theorem flattenField_embedded (parent : LStructTy) (fs : FlattenState)
    (off : Nat) (subName : String) (sub : StructInfo) :
    (flattenField parent fs (.embedded off subName sub)).si.arrayFlags
        = fs.si.arrayFlags ++ sub.arrayFlags ∧
    (flattenField parent fs (.embedded off subName sub)).si.pointerFlags
        = fs.si.pointerFlags ++ sub.pointerFlags ∧
    (flattenField parent fs (.embedded off subName sub)).si.unionFlags
        = fs.si.unionFlags ++ sub.unionFlags ∧
    (flattenField parent fs (.embedded off subName sub)).si.fieldRealSize
        = fs.si.fieldRealSize ++ sub.fieldRealSize ∧
    (flattenField parent fs (.embedded off subName sub)).si.fieldOffset
        = fs.si.fieldOffset ++
            off :: ((sub.fieldOffset.filter fun i => i != 0).map fun i => i + off) ∧
    (flattenField parent fs (.embedded off subName sub)).si.offsetMap
        = fs.si.offsetMap ++ [fs.numField] ∧
    (flattenField parent fs (.embedded off subName sub)).numField
        = fs.numField + sub.getExpandedSize ∧
    (flattenField parent fs (.embedded off subName sub)).regs
        = fs.regs ++ [(subName, parent, off)] := by
  refine ⟨?_, ?_, ?_, ?_, ?_, ?_, ?_, ?_⟩ <;>
    simp [flattenField, StructInfo.addOffsetMap, StructInfo.addFieldOffset,
      StructInfo.appendFields, StructInfo.appendFieldOffset, getLastD_concat]

theorem flattenField_extends (parent : LStructTy) (fs : FlattenState) (d : FieldDecl) :
    ∃ tA tP tU tR tO tM tG,
      (flattenField parent fs d).si.arrayFlags = fs.si.arrayFlags ++ tA ∧
      (flattenField parent fs d).si.pointerFlags = fs.si.pointerFlags ++ tP ∧
      (flattenField parent fs d).si.unionFlags = fs.si.unionFlags ++ tU ∧
      (flattenField parent fs d).si.fieldRealSize = fs.si.fieldRealSize ++ tR ∧
      (flattenField parent fs d).si.fieldOffset = fs.si.fieldOffset ++ tO ∧
      (flattenField parent fs d).si.offsetMap = fs.si.offsetMap ++ tM ∧
      (flattenField parent fs d).regs = fs.regs ++ tG := by
  cases d with
  | scalar off rsz a p u =>
    obtain ⟨h1, h2, h3, h4, h5, h6, _, h8⟩ := flattenField_scalar parent fs off rsz a p u
    exact ⟨[a], [p], [u], [rsz], [off], [fs.numField], [],
      h1, h2, h3, h4, h5, h6, by simp [h8]⟩
  | embedded off subName sub =>
    obtain ⟨h1, h2, h3, h4, h5, h6, _, h8⟩ := flattenField_embedded parent fs off subName sub
    exact ⟨sub.arrayFlags, sub.pointerFlags, sub.unionFlags, sub.fieldRealSize,
      off :: ((sub.fieldOffset.filter fun i => i != 0).map fun i => i + off),
      [fs.numField], [(subName, parent, off)], h1, h2, h3, h4, h5, h6, h8⟩

theorem flattenFields_extends (parent : LStructTy) (ds : List FieldDecl) :
    ∀ fs : FlattenState,
      ∃ tA tP tU tR tO tM tG,
        (flattenFields parent ds fs).si.arrayFlags = fs.si.arrayFlags ++ tA ∧
        (flattenFields parent ds fs).si.pointerFlags = fs.si.pointerFlags ++ tP ∧
        (flattenFields parent ds fs).si.unionFlags = fs.si.unionFlags ++ tU ∧
        (flattenFields parent ds fs).si.fieldRealSize = fs.si.fieldRealSize ++ tR ∧
        (flattenFields parent ds fs).si.fieldOffset = fs.si.fieldOffset ++ tO ∧
        (flattenFields parent ds fs).si.offsetMap = fs.si.offsetMap ++ tM ∧
        (flattenFields parent ds fs).regs = fs.regs ++ tG := by
  induction ds with
  | nil =>
    intro fs
    exact ⟨[], [], [], [], [], [], [], by simp [flattenFields]⟩
  | cons d rest ih =>
    intro fs
    obtain ⟨sA, sP, sU, sR, sO, sM, sG, g1, g2, g3, g4, g5, g6, g7⟩ :=
      flattenField_extends parent fs d
    obtain ⟨tA, tP, tU, tR, tO, tM, tG, h1, h2, h3, h4, h5, h6, h7⟩ :=
      ih (flattenField parent fs d)
    have hstep : flattenFields parent (d :: rest) fs
        = flattenFields parent rest (flattenField parent fs d) := rfl
    refine ⟨sA ++ tA, sP ++ tP, sU ++ tU, sR ++ tR, sO ++ tO, sM ++ tM, sG ++ tG,
      ?_, ?_, ?_, ?_, ?_, ?_, ?_⟩ <;>
      rw [hstep] <;>
      simp only [h1, h2, h3, h4, h5, h6, h7, g1, g2, g3, g4, g5, g6, g7,
        List.append_assoc]

theorem flattenFields_scalar_lengths (parent : LStructTy) (pre : List FieldDecl) :
    ∀ fs : FlattenState, (∀ d ∈ pre, d.isScalarDecl = true) →
      (flattenFields parent pre fs).si.arrayFlags.length
          = fs.si.arrayFlags.length + pre.length ∧
      (flattenFields parent pre fs).si.pointerFlags.length
          = fs.si.pointerFlags.length + pre.length ∧
      (flattenFields parent pre fs).si.unionFlags.length
          = fs.si.unionFlags.length + pre.length ∧
      (flattenFields parent pre fs).si.fieldRealSize.length
          = fs.si.fieldRealSize.length + pre.length ∧
      (flattenFields parent pre fs).si.fieldOffset.length
          = fs.si.fieldOffset.length + pre.length ∧
      (flattenFields parent pre fs).si.offsetMap.length
          = fs.si.offsetMap.length + pre.length ∧
      (flattenFields parent pre fs).numField = fs.numField + pre.length := by
  induction pre with
  | nil =>
    intro fs _
    simp [flattenFields]
  | cons d rest ih =>
    intro fs h
    have hd := h d (by simp)
    cases d with
    | embedded o n sub => simp [FieldDecl.isScalarDecl] at hd
    | scalar off rsz a p u =>
      obtain ⟨h1, h2, h3, h4, h5, h6, h7, _⟩ := flattenField_scalar parent fs off rsz a p u
      obtain ⟨k1, k2, k3, k4, k5, k6, k7⟩ :=
        ih (flattenField parent fs (.scalar off rsz a p u))
          (fun x hx => h x (by simp [hx]))
      have hstep : flattenFields parent (FieldDecl.scalar off rsz a p u :: rest) fs
          = flattenFields parent rest (flattenField parent fs (.scalar off rsz a p u)) := rfl
      refine ⟨?_, ?_, ?_, ?_, ?_, ?_, ?_⟩ <;> rw [hstep] <;>
        simp only [k1, k2, k3, k4, k5, k6, k7, h1, h2, h3, h4, h5, h6, h7,
          List.length_append, List.length_cons, List.length_nil] <;>
        omega


/-- Claim C4: flattening a type whose declared field `i` embeds an
aggregate `B` with `k` expanded fields (after `i` scalar-like fields)
leaves expanded fields `[0, i)` unchanged, places `B`'s `k` expanded fields
at expanded positions `[i, i+k)` with each spliced field's byte offset
rebased by the parent's byte offset of field `i`, records `offsetMap[i] = i`,
and emits the container registration putting `(parent, off)` in `B`'s
container set. -/
theorem flatten_embedding (aSt : LStructTy) (pre post : List FieldDecl) (off : Nat)
    (bName : String) (B : StructInfo) (bfoTail : List Nat)
    (hpre : ∀ d ∈ pre, d.isScalarDecl = true)
    (hBfo : B.fieldOffset = 0 :: bfoTail)
    (hTail : ∀ x ∈ bfoTail, x ≠ 0)
    (hP : B.pointerFlags.length = B.getExpandedSize)
    (hU : B.unionFlags.length = B.getExpandedSize)
    (hR : B.fieldRealSize.length = B.getExpandedSize)
    (hOlen : B.fieldOffset.length = B.getExpandedSize) :
    ((flattenStruct aSt (pre ++ .embedded off bName B :: post)).si.arrayFlags.take pre.length
        = (flattenStruct aSt pre).si.arrayFlags ∧
      (flattenStruct aSt (pre ++ .embedded off bName B :: post)).si.pointerFlags.take pre.length
        = (flattenStruct aSt pre).si.pointerFlags ∧
      (flattenStruct aSt (pre ++ .embedded off bName B :: post)).si.unionFlags.take pre.length
        = (flattenStruct aSt pre).si.unionFlags ∧
      (flattenStruct aSt (pre ++ .embedded off bName B :: post)).si.fieldRealSize.take pre.length
        = (flattenStruct aSt pre).si.fieldRealSize ∧
      (flattenStruct aSt (pre ++ .embedded off bName B :: post)).si.fieldOffset.take pre.length
        = (flattenStruct aSt pre).si.fieldOffset) ∧
    (((flattenStruct aSt (pre ++ .embedded off bName B :: post)).si.arrayFlags.drop
          pre.length).take B.getExpandedSize = B.arrayFlags ∧
      ((flattenStruct aSt (pre ++ .embedded off bName B :: post)).si.pointerFlags.drop
          pre.length).take B.getExpandedSize = B.pointerFlags ∧
      ((flattenStruct aSt (pre ++ .embedded off bName B :: post)).si.unionFlags.drop
          pre.length).take B.getExpandedSize = B.unionFlags ∧
      ((flattenStruct aSt (pre ++ .embedded off bName B :: post)).si.fieldRealSize.drop
          pre.length).take B.getExpandedSize = B.fieldRealSize ∧
      ((flattenStruct aSt (pre ++ .embedded off bName B :: post)).si.fieldOffset.drop
          pre.length).take B.getExpandedSize = B.fieldOffset.map fun i => i + off) ∧
    (flattenStruct aSt (pre ++ .embedded off bName B :: post)).si.offsetMap[pre.length]?
        = some pre.length ∧
    (bName, aSt, off) ∈ (flattenStruct aSt (pre ++ .embedded off bName B :: post)).regs ∧
    (aSt, off) ∈ (B.addContainer aSt off).containers := by
  have hfold : flattenStruct aSt (pre ++ FieldDecl.embedded off bName B :: post)
      = flattenFields aSt post
          (flattenField aSt (flattenFields aSt pre {}) (.embedded off bName B)) := by
    simp only [flattenStruct, flattenFields, List.foldl_append, List.foldl_cons]
  obtain ⟨e1, e2, e3, e4, e5, e6, e7, e8⟩ :=
    flattenField_embedded aSt (flattenFields aSt pre {}) off bName B
  obtain ⟨t1, t2, t3, t4, t5, t6, t7, k1, k2, k3, k4, k5, k6, k7⟩ :=
    flattenFields_extends aSt post
      (flattenField aSt (flattenFields aSt pre {}) (.embedded off bName B))
  obtain ⟨l1, l2, l3, l4, l5, l6, l7⟩ :=
    flattenFields_scalar_lengths aSt pre {} hpre
  simp only [show ({} : FlattenState).si.arrayFlags.length = 0 from rfl,
    show ({} : FlattenState).si.pointerFlags.length = 0 from rfl,
    show ({} : FlattenState).si.unionFlags.length = 0 from rfl,
    show ({} : FlattenState).si.fieldRealSize.length = 0 from rfl,
    show ({} : FlattenState).si.fieldOffset.length = 0 from rfl,
    show ({} : FlattenState).si.offsetMap.length = 0 from rfl,
    show ({} : FlattenState).numField = 0 from rfl, Nat.zero_add] at l1 l2 l3 l4 l5 l6 l7
  have hsplice : off :: ((B.fieldOffset.filter fun i => i != 0).map fun i => i + off)
      = B.fieldOffset.map fun i => i + off := by
    rw [hBfo]
    have hf0 : ((0 : Nat) != 0) = false := by decide
    have hfr : bfoTail.filter (fun i => i != 0) = bfoTail :=
      List.filter_eq_self.mpr (fun a ha => by simpa using hTail a ha)
    simp only [List.filter_cons, hf0, Bool.false_eq_true, if_false, hfr,
      List.map_cons, Nat.zero_add]
  rw [hsplice] at e5
  refine ⟨⟨?_, ?_, ?_, ?_, ?_⟩, ⟨?_, ?_, ?_, ?_, ?_⟩, ?_, ?_, ?_⟩
  · rw [hfold, k1, e1, List.append_assoc]
    exact List.take_left' l1
  · rw [hfold, k2, e2, List.append_assoc]
    exact List.take_left' l2
  · rw [hfold, k3, e3, List.append_assoc]
    exact List.take_left' l3
  · rw [hfold, k4, e4, List.append_assoc]
    exact List.take_left' l4
  · rw [hfold, k5, e5, List.append_assoc]
    exact List.take_left' l5
  · rw [hfold, k1, e1, List.append_assoc, List.drop_left' l1]
    exact List.take_left' rfl
  · rw [hfold, k2, e2, List.append_assoc, List.drop_left' l2]
    exact List.take_left' hP
  · rw [hfold, k3, e3, List.append_assoc, List.drop_left' l3]
    exact List.take_left' hU
  · rw [hfold, k4, e4, List.append_assoc, List.drop_left' l4]
    exact List.take_left' hR
  · rw [hfold, k5, e5, List.append_assoc, List.drop_left' l5]
    refine List.take_left' ?_
    rw [List.length_map]
    exact hOlen
  · rw [hfold, k6, e6, l7, List.append_assoc]
    rw [List.getElem?_append_right (by omega : (flattenFields aSt pre {}).si.offsetMap.length ≤ pre.length)]
    simp [l6]
  · rw [hfold, k7, e8]
    simp
  · unfold StructInfo.addContainer
    by_cases hmem : (aSt, off) ∈ B.containers
    · rw [if_pos hmem]
      exact hmem
    · rw [if_neg hmem]
      simp


/-- Witness for C4: flattening a type with one scalar field followed by an
embedded two-field aggregate at byte offset 8 maps declared field 1 to
expanded position 1 and emits the container registration for the embedded
type. -/
theorem flatten_embedding_witness :
    (flattenStruct ⟨"struct.A", false⟩
        [FieldDecl.scalar 0 4 false false false,
         FieldDecl.embedded 8 "struct.B" bLayout]).si.offsetMap[(1 : Nat)]? = some 1 ∧
    ("struct.B", (⟨"struct.A", false⟩ : LStructTy), 8) ∈
      (flattenStruct ⟨"struct.A", false⟩
        [FieldDecl.scalar 0 4 false false false,
         FieldDecl.embedded 8 "struct.B" bLayout]).regs := by
  have h := flatten_embedding ⟨"struct.A", false⟩ [.scalar 0 4 false false false] []
    8 "struct.B" bLayout [8]
    (by
      intro d hd
      rw [List.mem_singleton] at hd
      subst hd
      rfl)
    rfl (by decide) rfl rfl rfl rfl
  exact ⟨h.2.2.1, h.2.2.2.1⟩

end SlabCache
